import Mathlib

/-!
Shallow embedding of the ULWILA color-score editor's layout, color and
persistence modules (TypeScript sources: models/types.ts, constants/colors.ts,
renderers/staffLayout, renderers/circlesLayout.ts, export/jsonPersistence.ts).
Numbers are modelled as exact rationals; JS arrays as lists; optional object
properties as `Option`; thrown errors as `Except String`.
-/

namespace ColorScore

/-- models/types.ts: `Pitch = "C" | "D" | "E" | "F" | "G" | "A" | "H"`. -/
inductive Pitch
  | C
  | D
  | E
  | F
  | G
  | A
  | H
  deriving DecidableEq

/-- models/types.ts: `Octave = "lower" | "middle" | "upper"`. -/
inductive Octave
  | lower
  | middle
  | upper
  deriving DecidableEq

/-- models/types.ts: `Duration = "whole" | "half" | "quarter" | "eighth" | "sixteenth"`. -/
inductive Duration
  | whole
  | half
  | quarter
  | eighth
  | sixteenth
  deriving DecidableEq

/-- models/types.ts: `RenderingMode = "staff" | "circles"`. -/
inductive RenderingMode
  | staff
  | circles
  deriving DecidableEq

/-- models/types.ts: `Clef = "treble" | "bass"`. -/
inductive Clef
  | treble
  | bass
  deriving DecidableEq

/-- models/types.ts: `TimeSignature` with numeric `beats` and `beatValue`. -/
structure TimeSignature where
  beats : ℚ
  beatValue : ℚ
  deriving DecidableEq

/-- models/types.ts: tagged union `NoteOrRest`.  A Note carries pitch, octave,
duration and optional `lyric` / `accented`; a Rest carries only a duration. -/
inductive NoteOrRest
  | note (pitch : Pitch) (octave : Octave) (duration : Duration)
      (lyric : Option String) (accented : Option Bool)
  | rest (duration : Duration)
  deriving DecidableEq

/-- models/types.ts: `Part` with optional `name` and a list of notes. -/
structure Part where
  name : Option String
  notes : List NoteOrRest
  deriving DecidableEq

/-- models/types.ts: `Score`. -/
structure Score where
  title : String
  tempo : Option ℚ
  renderingMode : RenderingMode
  timeSignature : TimeSignature
  clef : Clef
  parts : List Part
  deriving DecidableEq

/-- The `duration` field shared by both variants of `NoteOrRest`. -/
def durationOf : NoteOrRest → Duration
  | .note _ _ d _ _ => d
  | .rest d => d

/-! constants/colors.ts -/

/-- constants/colors.ts: `ULWILA_COLORS`, the fixed pitch→hex-color table. -/
def ULWILA_COLORS : Pitch → String
  | .C => "#1A1A1A"
  | .D => "#8B4513"
  | .E => "#0000CD"
  | .F => "#228B22"
  | .G => "#DC143C"
  | .A => "#FF8C00"
  | .H => "#FFD700"

/-- The `{left, right}` color pair returned by `getAccentedColors`. -/
structure AccentedColors where
  left : String
  right : String
  deriving DecidableEq

/-- constants/colors.ts: the `NEXT_PITCH` table local to `getAccentedColors`
(C→D, D→E, F→G, G→A, A→H; no entry for E and H). -/
def NEXT_PITCH : Pitch → Option Pitch
  | .C => some .D
  | .D => some .E
  | .F => some .G
  | .G => some .A
  | .A => some .H
  | _ => none

/-- constants/colors.ts: `getAccentedColors` — left is the pitch's own color,
right the next higher pitch's color; for E and H both halves are the own color. -/
def getAccentedColors (pitch : Pitch) : AccentedColors :=
  match NEXT_PITCH pitch with
  | none => ⟨ULWILA_COLORS pitch, ULWILA_COLORS pitch⟩
  | some nextPitch => ⟨ULWILA_COLORS pitch, ULWILA_COLORS nextPitch⟩

/-! Staff layout (renderers/staffLayout source file). -/

namespace Staff

/-- staffLayout: `LayoutConfig` (a full configuration; the TS entry point merges
a caller's partial overrides over `DEFAULT_CONFIG`, so every configuration the
code actually runs with is one of these records). -/
structure LayoutConfig where
  canvasWidth : ℚ
  staffLineSpacing : ℚ
  noteSpacing : ℚ
  marginLeft : ℚ
  marginTop : ℚ
  staffHeight : ℚ
  systemSpacing : ℚ
  deriving DecidableEq

/-- staffLayout: `DEFAULT_CONFIG`. -/
def DEFAULT_CONFIG : LayoutConfig :=
  { canvasWidth := 800
    staffLineSpacing := 10
    noteSpacing := 30
    marginLeft := 60
    marginTop := 40
    staffHeight := 40
    systemSpacing := 80 }

/-- staffLayout: `NoteLayout` (the `octave` property is set only for notes). -/
structure NoteLayout where
  x : ℚ
  y : ℚ
  noteIndex : ℕ
  partIndex : ℕ
  isRest : Bool
  octave : Option Octave
  deriving DecidableEq

/-- staffLayout: `StaffSystem`. -/
structure StaffSystem where
  startX : ℚ
  startY : ℚ
  notes : List NoteLayout
  barLines : List ℚ
  deriving DecidableEq

/-- staffLayout: `StaffLayout`. -/
structure StaffLayout where
  systems : List StaffSystem
  config : LayoutConfig
  deriving DecidableEq

/-- staffLayout: `DURATION_TO_BEATS` (quarter-note units). -/
def DURATION_TO_BEATS : Duration → ℚ
  | .whole => 4
  | .half => 2
  | .quarter => 1
  | .eighth => 0.5
  | .sixteenth => 0.25

/-- staffLayout: `pitchToStaffPosition` — treble/bass pitch-offset tables plus
the lower/middle/upper register offsets 0/7/14. -/
def pitchToStaffPosition (pitch : Pitch) (octave : Octave) (clef : Clef) : ℤ :=
  let treblePitchOffsets : Pitch → ℤ := fun p =>
    match p with
    | .C => -2
    | .D => -1
    | .E => 0
    | .F => 1
    | .G => 2
    | .A => 3
    | .H => 4
  let bassPitchOffsets : Pitch → ℤ := fun p =>
    match p with
    | .C => -4
    | .D => -3
    | .E => -2
    | .F => -1
    | .G => 0
    | .A => 1
    | .H => 2
  let octaveOffsets : Octave → ℤ := fun o =>
    match o with
    | .lower => 0
    | .middle => 7
    | .upper => 14
  let pitchOffsets := match clef with
    | .bass => bassPitchOffsets
    | .treble => treblePitchOffsets
  pitchOffsets pitch + octaveOffsets octave

end Staff

/-- An element of the flattened note sequence built at the start of both
layout functions: a note together with its `(partIndex, noteIndex)` tag. -/
structure TaggedNote where
  note : NoteOrRest
  partIndex : ℕ
  noteIndex : ℕ
  deriving DecidableEq

/-- Tag the notes of one part with their indices, starting at `noteIndex`. -/
def tagNotes (partIndex : ℕ) : ℕ → List NoteOrRest → List TaggedNote
  | _, [] => []
  | noteIndex, n :: ns => ⟨n, partIndex, noteIndex⟩ :: tagNotes partIndex (noteIndex + 1) ns

/-- Flatten the parts in order, tagging each note (parts are concatenated). -/
def flattenParts : ℕ → List Part → List TaggedNote
  | _, [] => []
  | partIndex, p :: ps => tagNotes partIndex 0 p.notes ++ flattenParts (partIndex + 1) ps

/-- The `allNotes` array both layout functions build from a score. -/
def flattenScore (score : Score) : List TaggedNote :=
  flattenParts 0 score.parts

namespace Staff

/-- The `NoteLayout` record pushed for one flattened note at horizontal
position `x` (staffLayout, body of the `computeLayout` loop): rests sit at the
staff's vertical center (y = 4) and carry no octave. -/
def staffEntry (clef : Clef) (t : TaggedNote) (x : ℚ) : NoteLayout :=
  match t.note with
  | .rest _ =>
      { x := x, y := 4, noteIndex := t.noteIndex, partIndex := t.partIndex,
        isRest := true, octave := none }
  | .note p o _ _ _ =>
      { x := x, y := (pitchToStaffPosition p o clef : ℚ), noteIndex := t.noteIndex,
        partIndex := t.partIndex, isRest := false, octave := some o }

/-- The mutable loop state of `computeLayout`: closed systems, the system under
construction, the running x position and the running beat counter. -/
structure StaffState where
  systems : List StaffSystem
  cur : StaffSystem
  currentX : ℚ
  currentBeats : ℚ
  deriving DecidableEq

/-- The loop state before the first iteration of `computeLayout`. -/
def staffInit (config : LayoutConfig) : StaffState :=
  { systems := []
    cur := { startX := config.marginLeft, startY := config.marginTop, notes := [], barLines := [] }
    currentX := config.marginLeft
    currentBeats := 0 }

/-- One iteration of the `computeLayout` loop: push the note's layout, advance
the beat counter and x, insert a bar line when the measure is complete (counter
resets to 0, overflow dropped), then wrap to a new system when x runs past the
usable width. -/
def staffStep (config : LayoutConfig) (clef : Clef) (beatsPerMeasure : ℚ)
    (s : StaffState) (t : TaggedNote) : StaffState :=
  let cur1 : StaffSystem := { s.cur with notes := s.cur.notes ++ [staffEntry clef t s.currentX] }
  let beats1 := s.currentBeats + DURATION_TO_BEATS (durationOf t.note)
  let x1 := s.currentX + config.noteSpacing
  let cur2 : StaffSystem :=
    if beatsPerMeasure ≤ beats1 then
      { cur1 with barLines := cur1.barLines ++ [x1 - config.noteSpacing / 2] }
    else cur1
  let beats2 : ℚ := if beatsPerMeasure ≤ beats1 then 0 else beats1
  if config.canvasWidth - config.marginLeft < x1 then
    { systems := s.systems ++ [cur2]
      cur := { startX := config.marginLeft
               startY := cur2.startY + config.staffHeight + config.systemSpacing
               notes := [], barLines := [] }
      currentX := config.marginLeft
      currentBeats := beats2 }
  else
    { systems := s.systems, cur := cur2, currentX := x1, currentBeats := beats2 }

/-- staffLayout: `computeLayout` — fold the flattened note sequence through
`staffStep`, append the final system when it holds notes, and fall back to a
single empty system for an empty score. -/
def computeLayout (score : Score) (config : LayoutConfig) : StaffLayout :=
  let beatsPerMeasure := score.timeSignature.beats * (4 / score.timeSignature.beatValue)
  let final := (flattenScore score).foldl (staffStep config score.clef beatsPerMeasure) (staffInit config)
  let systems1 := if final.cur.notes.length > 0 then final.systems ++ [final.cur] else final.systems
  let systems2 := if systems1.length = 0 then systems1 ++ [final.cur] else systems1
  { systems := systems2, config := config }

/-- Observer: the concatenation of the systems' note lists, in system order. -/
def joinedNotes (l : StaffLayout) : List NoteLayout :=
  (l.systems.map StaffSystem.notes).flatten

/-- Observer: the total number of bar lines across all systems. -/
def totalBarLines (l : StaffLayout) : ℕ :=
  (l.systems.map (fun sys => sys.barLines.length)).sum

/-- Observer on loop states: all note layouts produced so far, in order. -/
def collectedNotes (s : StaffState) : List NoteLayout :=
  (s.systems.map StaffSystem.notes).flatten ++ s.cur.notes

/-- Observer on loop states: bar lines produced so far. -/
def stateBars (s : StaffState) : ℕ :=
  (s.systems.map (fun sys => sys.barLines.length)).sum + s.cur.barLines.length

end Staff

/-! Circles layout (renderers/circlesLayout.ts). -/

namespace Circles

/-- circlesLayout.ts: `CirclesLayoutConfig` (full configuration; the TS entry
point merges partial overrides over `DEFAULT_CONFIG`). -/
structure CirclesLayoutConfig where
  canvasWidth : ℚ
  circleSize : ℚ
  circleSpacing : ℚ
  marginLeft : ℚ
  marginTop : ℚ
  rowSpacing : ℚ
  lyricOffset : ℚ
  deriving DecidableEq

/-- circlesLayout.ts: `DEFAULT_CONFIG`. -/
def DEFAULT_CONFIG : CirclesLayoutConfig :=
  { canvasWidth := 800
    circleSize := 40
    circleSpacing := 50
    marginLeft := 20
    marginTop := 30
    rowSpacing := 80
    lyricOffset := 25 }

/-- One element of a `subCircles` array.  The source's object literals set only
`cx`, `cy` and `radius`; `octave` and `lyric` are modelled as options to
reflect that, at runtime, those properties are absent (undefined) on every
sub-circle object — the constructors below always leave them `none`. -/
structure SubCircle where
  cx : ℚ
  cy : ℚ
  radius : ℚ
  octave : Option Octave
  lyric : Option String
  deriving DecidableEq

/-- circlesLayout.ts: `CircleLayout`, one circle entry (optional properties as
options; `subCircles` present only for eighth/sixteenth notes). -/
structure CircleLayout where
  cx : ℚ
  cy : ℚ
  radius : ℚ
  partIndex : ℕ
  noteIndex : ℕ
  isRest : Bool
  octave : Option Octave
  subCircles : Option (List SubCircle)
  lyric : Option String
  deriving DecidableEq

/-- circlesLayout.ts: `CircleRow`. -/
structure CircleRow where
  startY : ℚ
  circles : List CircleLayout
  deriving DecidableEq

/-- circlesLayout.ts: `CirclesLayout`. -/
structure CirclesLayout where
  rows : List CircleRow
  config : CirclesLayoutConfig
  totalHeight : ℚ
  deriving DecidableEq

/-- circlesLayout.ts: `durationToPositions` — horizontal positions occupied. -/
def durationToPositions : Duration → ℚ
  | .whole => 4
  | .half => 2
  | .quarter => 1
  | .eighth => 1
  | .sixteenth => 1

/-- circlesLayout.ts: `computeNoteCircle` — per-duration circle geometry for a
note (the source destructures `duration`, `octave`, `lyric` from the note). -/
def computeNoteCircle (octave : Octave) (duration : Duration) (lyric : Option String)
    (startX rowY baseRadius : ℚ) (config : CirclesLayoutConfig)
    (partIndex noteIndex : ℕ) : CircleLayout :=
  match duration with
  | .whole =>
      let centerX := startX + (4 - 1) * config.circleSpacing / 2
      { cx := centerX, cy := rowY, radius := baseRadius * 1.8,
        partIndex := partIndex, noteIndex := noteIndex, isRest := false,
        octave := some octave, subCircles := none, lyric := lyric }
  | .half =>
      let centerX := startX + (2 - 1) * config.circleSpacing / 2
      { cx := centerX, cy := rowY, radius := baseRadius * 1.4,
        partIndex := partIndex, noteIndex := noteIndex, isRest := false,
        octave := some octave, subCircles := none, lyric := lyric }
  | .quarter =>
      { cx := startX, cy := rowY, radius := baseRadius,
        partIndex := partIndex, noteIndex := noteIndex, isRest := false,
        octave := some octave, subCircles := none, lyric := lyric }
  | .eighth =>
      let smallRadius := baseRadius * 0.6
      let gap := smallRadius * 2.2
      { cx := startX, cy := rowY, radius := smallRadius,
        partIndex := partIndex, noteIndex := noteIndex, isRest := false,
        octave := some octave,
        subCircles := some
          [ { cx := startX - gap / 2, cy := rowY, radius := smallRadius, octave := none, lyric := none },
            { cx := startX + gap / 2, cy := rowY, radius := smallRadius, octave := none, lyric := none } ],
        lyric := lyric }
  | .sixteenth =>
      let tinyRadius := baseRadius * 0.4
      let gap := tinyRadius * 2.4
      { cx := startX, cy := rowY, radius := tinyRadius,
        partIndex := partIndex, noteIndex := noteIndex, isRest := false,
        octave := some octave,
        subCircles := some
          [ { cx := startX - gap / 2, cy := rowY - gap / 2, radius := tinyRadius, octave := none, lyric := none },
            { cx := startX + gap / 2, cy := rowY - gap / 2, radius := tinyRadius, octave := none, lyric := none },
            { cx := startX - gap / 2, cy := rowY + gap / 2, radius := tinyRadius, octave := none, lyric := none },
            { cx := startX + gap / 2, cy := rowY + gap / 2, radius := tinyRadius, octave := none, lyric := none } ],
        lyric := lyric }

/-- The circle entry pushed for one flattened note at position `(x, y)`
(body of the `computeCirclesLayout` loop): rests are radius-0 placeholders,
notes go through `computeNoteCircle`. -/
def circleEntry (config : CirclesLayoutConfig) (baseRadius : ℚ) (t : TaggedNote)
    (x y : ℚ) : CircleLayout :=
  match t.note with
  | .rest d =>
      let totalWidth := durationToPositions d * config.circleSpacing
      { cx := x + (totalWidth - config.circleSpacing) / 2, cy := y, radius := 0,
        partIndex := t.partIndex, noteIndex := t.noteIndex, isRest := true,
        octave := none, subCircles := none, lyric := none }
  | .note _ o d l _ =>
      computeNoteCircle o d l x y baseRadius config t.partIndex t.noteIndex

/-- The mutable loop state of `computeCirclesLayout`. -/
structure CircleState where
  rows : List CircleRow
  currentRow : List CircleLayout
  currentX : ℚ
  currentRowY : ℚ
  deriving DecidableEq

/-- The loop state before the first iteration of `computeCirclesLayout`. -/
def circlesInit (config : CirclesLayoutConfig) (baseRadius : ℚ) : CircleState :=
  { rows := []
    currentRow := []
    currentX := config.marginLeft + baseRadius
    currentRowY := config.marginTop + baseRadius }

/-- One iteration of the `computeCirclesLayout` loop: wrap to a new row first
when the circle would run past `maxX` and the current row is non-empty, then
push the note's circle entry and advance x by its horizontal footprint. -/
def circlesStep (config : CirclesLayoutConfig) (baseRadius maxX : ℚ)
    (s : CircleState) (t : TaggedNote) : CircleState :=
  let totalWidth := durationToPositions (durationOf t.note) * config.circleSpacing
  let s1 : CircleState :=
    if maxX < s.currentX + totalWidth - config.circleSpacing / 2 ∧ s.currentRow ≠ [] then
      { rows := s.rows ++ [{ startY := s.currentRowY, circles := s.currentRow }]
        currentRow := []
        currentX := config.marginLeft + baseRadius
        currentRowY := s.currentRowY + config.rowSpacing }
    else s
  { s1 with
    currentRow := s1.currentRow ++ [circleEntry config baseRadius t s1.currentX s1.currentRowY]
    currentX := s1.currentX + totalWidth }

/-- circlesLayout.ts: `computeCirclesLayout` — fold the flattened note sequence
through `circlesStep`, push the final row when non-empty, fall back to a single
empty row, and compute the total height from the last row. -/
def computeCirclesLayout (score : Score) (config : CirclesLayoutConfig) : CirclesLayout :=
  let baseRadius := config.circleSize / 2
  let maxX := config.canvasWidth - config.marginLeft - baseRadius
  let final := (flattenScore score).foldl (circlesStep config baseRadius maxX)
    (circlesInit config baseRadius)
  let rows1 := if final.currentRow ≠ [] then
    final.rows ++ [{ startY := final.currentRowY, circles := final.currentRow }] else final.rows
  let rows2 := if rows1 = [] then [{ startY := final.currentRowY, circles := [] }] else rows1
  let lastRow := rows2.getLastD { startY := 0, circles := [] }
  { rows := rows2
    config := config
    totalHeight := lastRow.startY + baseRadius + config.lyricOffset + 20 }

/-- Observer: the concatenation of the rows' circle lists, in row order. -/
def joinedCircles (l : CirclesLayout) : List CircleLayout :=
  (l.rows.map CircleRow.circles).flatten

/-- Observer on loop states: all circle entries produced so far, in order. -/
def collectedCircles (s : CircleState) : List CircleLayout :=
  (s.rows.map CircleRow.circles).flatten ++ s.currentRow

end Circles

/-! JSON persistence (export/jsonPersistence.ts).  The file/Blob plumbing
(`readFileAsText`, `JSON.parse`, the download anchor) is outside the model:
`loadScore` below takes the already-parsed JSON value, and `saveScoreJson`
models the `JSON.stringify(score, null, 2)` step of `saveScore` as the JSON
tree it serializes (optional fields absent when undefined, keys in insertion
order). -/

namespace Persist

/-- A parsed JSON value. -/
inductive Json
  | null
  | bool (b : Bool)
  | num (q : ℚ)
  | str (s : String)
  | arr (elems : List Json)
  | obj (fields : List (String × Json))

/-- JS property lookup on an object's fields (`undefined` = `none`). -/
def getField : List (String × Json) → String → Option Json
  | [], _ => none
  | (k, v) :: rest, key => if k == key then some v else getField rest key

/-- JS `String(x)` coercion used when interpolating an invalid value into an
error message (approximate for numbers and arrays; irrelevant to the claims). -/
def jsString : Json → String
  | .null => "null"
  | .bool true => "true"
  | .bool false => "false"
  | .num q => toString q
  | .str s => s
  | .arr _ => ""
  | .obj _ => "[object Object]"

/-- JS `String(x)` where `x` may be undefined. -/
def jsStringOpt : Option Json → String
  | none => "undefined"
  | some j => jsString j

/-- The `VALID_PITCHES` membership test fused with the subsequent cast. -/
def pitchOfString : String → Option Pitch
  | "C" => some .C
  | "D" => some .D
  | "E" => some .E
  | "F" => some .F
  | "G" => some .G
  | "A" => some .A
  | "H" => some .H
  | _ => none

/-- The `VALID_OCTAVES` membership test fused with the subsequent cast. -/
def octaveOfString : String → Option Octave
  | "lower" => some .lower
  | "middle" => some .middle
  | "upper" => some .upper
  | _ => none

/-- The `VALID_DURATIONS` membership test fused with the subsequent cast. -/
def durationOfString : String → Option Duration
  | "whole" => some .whole
  | "half" => some .half
  | "quarter" => some .quarter
  | "eighth" => some .eighth
  | "sixteenth" => some .sixteenth
  | _ => none

/-- The `VALID_RENDERING_MODES` membership test fused with the cast. -/
def renderingModeOfString : String → Option RenderingMode
  | "staff" => some .staff
  | "circles" => some .circles
  | _ => none

/-- The `VALID_CLEFS` membership test fused with the subsequent cast. -/
def clefOfString : String → Option Clef
  | "treble" => some .treble
  | "bass" => some .bass
  | _ => none

/-- Pitch validation block of `validateNoteOrRest`. -/
def decodePitch (fs : List (String × Json)) (pfx : String) : Except String Pitch :=
  match getField fs "pitch" with
  | some (.str s) =>
      match pitchOfString s with
      | some p => .ok p
      | none => .error (pfx ++ ": invalid pitch \"" ++ s ++ "\" — expected one of C, D, E, F, G, A, H")
  | j => .error (pfx ++ ": invalid pitch \"" ++ jsStringOpt j ++ "\" — expected one of C, D, E, F, G, A, H")

/-- Octave validation block of `validateNoteOrRest`. -/
def decodeOctave (fs : List (String × Json)) (pfx : String) : Except String Octave :=
  match getField fs "octave" with
  | some (.str s) =>
      match octaveOfString s with
      | some o => .ok o
      | none => .error (pfx ++ ": invalid octave \"" ++ s ++ "\" — expected one of lower, middle, upper")
  | j => .error (pfx ++ ": invalid octave \"" ++ jsStringOpt j ++ "\" — expected one of lower, middle, upper")

/-- Duration validation block of `validateNoteOrRest`. -/
def decodeDuration (fs : List (String × Json)) (pfx : String) : Except String Duration :=
  match getField fs "duration" with
  | some (.str s) =>
      match durationOfString s with
      | some d => .ok d
      | none => .error (pfx ++ ": invalid duration \"" ++ s ++ "\" — expected one of whole, half, quarter, eighth, sixteenth")
  | j => .error (pfx ++ ": invalid duration \"" ++ jsStringOpt j ++ "\" — expected one of whole, half, quarter, eighth, sixteenth")

/-- Optional-lyric validation block of `validateNoteOrRest`. -/
def decodeLyric (fs : List (String × Json)) (pfx : String) : Except String (Option String) :=
  match getField fs "lyric" with
  | none => .ok none
  | some (.str l) => .ok (some l)
  | some _ => .error (pfx ++ ": lyric must be a string if provided")

/-- Optional-accented validation block of `validateNoteOrRest`. -/
def decodeAccented (fs : List (String × Json)) (pfx : String) : Except String (Option Bool) :=
  match getField fs "accented" with
  | none => .ok none
  | some (.bool b) => .ok (some b)
  | some _ => .error (pfx ++ ": accented must be a boolean if provided")

/-- Body of `validateNoteOrRest` once the entry is known to be an object. -/
def validateNoteFields (fs : List (String × Json)) (pfx : String) : Except String NoteOrRest :=
  match getField fs "type" with
  | some (.str "note") => do
      let p ← decodePitch fs pfx
      let o ← decodeOctave fs pfx
      let d ← decodeDuration fs pfx
      let l ← decodeLyric fs pfx
      let a ← decodeAccented fs pfx
      .ok (.note p o d l a)
  | some (.str "rest") => do
      let d ← decodeDuration fs pfx
      .ok (.rest d)
  | j => .error (pfx ++ ": invalid type \"" ++ jsStringOpt j ++ "\" — expected \"note\" or \"rest\"")

/-- jsonPersistence.ts: `validateNoteOrRest`.  A JS array passes the
`typeof entry === "object"` test but has none of the note properties, so it is
treated as an object with no fields. -/
def validateNoteOrRest (entry : Json) (partIndex noteIndex : ℕ) : Except String NoteOrRest :=
  let pfx := "parts[" ++ toString partIndex ++ "].notes[" ++ toString noteIndex ++ "]"
  match entry with
  | .obj fs => validateNoteFields fs pfx
  | .arr _ => validateNoteFields [] pfx
  | _ => .error (pfx ++ ": must be an object")

/-- The `obj.notes.map(validateNoteOrRest)` loop, index-carrying. -/
def validateNotes : List Json → ℕ → ℕ → Except String (List NoteOrRest)
  | [], _, _ => .ok []
  | n :: ns, partIndex, noteIndex => do
      let v ← validateNoteOrRest n partIndex noteIndex
      let vs ← validateNotes ns partIndex (noteIndex + 1)
      .ok (v :: vs)

/-- Body of `validatePart` once the entry is known to be an object. -/
def validatePartFields (fs : List (String × Json)) (index : ℕ) : Except String Part :=
  match getField fs "notes" with
  | some (.arr ns) =>
      match getField fs "name" with
      | none => do
          let notes ← validateNotes ns index 0
          .ok { name := none, notes := notes }
      | some (.str nm) => do
          let notes ← validateNotes ns index 0
          .ok { name := some nm, notes := notes }
      | some _ => .error ("parts[" ++ toString index ++ "]: name must be a string if provided")
  | _ => .error ("parts[" ++ toString index ++ "]: must have a \"notes\" array")

/-- jsonPersistence.ts: `validatePart`. -/
def validatePart (entry : Json) (index : ℕ) : Except String Part :=
  match entry with
  | .obj fs => validatePartFields fs index
  | .arr _ => validatePartFields [] index
  | _ => .error ("parts[" ++ toString index ++ "]: must be an object")

/-- The `obj.parts.map(validatePart)` loop, index-carrying. -/
def validateParts : List Json → ℕ → Except String (List Part)
  | [], _ => .ok []
  | p :: ps, index => do
      let v ← validatePart p index
      let vs ← validateParts ps (index + 1)
      .ok (v :: vs)

/-- Title validation block of `loadScore`. -/
def decodeTitle (fs : List (String × Json)) : Except String String :=
  match getField fs "title" with
  | some (.str t) => .ok t
  | _ => .error "Score must have a \"title\" string"

/-- RenderingMode validation block of `loadScore`. -/
def decodeRenderingMode (fs : List (String × Json)) : Except String RenderingMode :=
  match getField fs "renderingMode" with
  | some (.str s) =>
      match renderingModeOfString s with
      | some rm => .ok rm
      | none => .error ("Invalid renderingMode \"" ++ s ++ "\" — expected one of staff, circles")
  | j => .error ("Invalid renderingMode \"" ++ jsStringOpt j ++ "\" — expected one of staff, circles")

/-- Clef validation block of `loadScore`. -/
def decodeClef (fs : List (String × Json)) : Except String Clef :=
  match getField fs "clef" with
  | some (.str s) =>
      match clefOfString s with
      | some c => .ok c
      | none => .error ("Invalid clef \"" ++ s ++ "\" — expected one of treble, bass")
  | j => .error ("Invalid clef \"" ++ jsStringOpt j ++ "\" — expected one of treble, bass")

/-- TimeSignature validation block of `loadScore`: the entry must be a non-null
object and `beats` / `beatValue` must be numbers — no positivity or
integrality test is performed.  A JS array passes the `typeof` test and is
treated as an object with no fields. -/
def decodeTimeSignature (fs : List (String × Json)) : Except String TimeSignature :=
  let fromFields := fun (tfs : List (String × Json)) =>
    match getField tfs "beats", getField tfs "beatValue" with
    | some (.num b), some (.num bv) => Except.ok { beats := b, beatValue := bv }
    | _, _ => .error "timeSignature must have numeric \"beats\" and \"beatValue\""
  match getField fs "timeSignature" with
  | some (.obj tfs) => fromFields tfs
  | some (.arr _) => fromFields []
  | _ => .error "Score must have a \"timeSignature\" object"

/-- Parts validation block of `loadScore`. -/
def decodeScoreParts (fs : List (String × Json)) : Except String (List Part) :=
  match getField fs "parts" with
  | some (.arr ps) => validateParts ps 0
  | _ => .error "Score must have a \"parts\" array"

/-- Optional-tempo validation block of `loadScore`. -/
def decodeTempo (fs : List (String × Json)) : Except String (Option ℚ) :=
  match getField fs "tempo" with
  | none => .ok none
  | some (.num t) => .ok (some t)
  | some _ => .error "tempo must be a number if provided"

/-- jsonPersistence.ts: `loadScore` on the already-parsed JSON value: a
non-object (or array or null) document is rejected, then title,
renderingMode, clef, timeSignature and parts are validated in source order,
and the optional tempo last. -/
def loadScore (j : Json) : Except String Score :=
  match j with
  | .obj fs => do
      let title ← decodeTitle fs
      let rm ← decodeRenderingMode fs
      let clef ← decodeClef fs
      let ts ← decodeTimeSignature fs
      let parts ← decodeScoreParts fs
      let tempo ← decodeTempo fs
      .ok { title := title, tempo := tempo, renderingMode := rm,
            timeSignature := ts, clef := clef, parts := parts }
  | _ => .error "Score must be a JSON object"

/-- Serialization of a Pitch, inverse of the `VALID_PITCHES` strings. -/
def pitchString : Pitch → String
  | .C => "C"
  | .D => "D"
  | .E => "E"
  | .F => "F"
  | .G => "G"
  | .A => "A"
  | .H => "H"

/-- Serialization of an Octave. -/
def octaveString : Octave → String
  | .lower => "lower"
  | .middle => "middle"
  | .upper => "upper"

/-- Serialization of a Duration. -/
def durationString : Duration → String
  | .whole => "whole"
  | .half => "half"
  | .quarter => "quarter"
  | .eighth => "eighth"
  | .sixteenth => "sixteenth"

/-- Serialization of a RenderingMode. -/
def renderingModeString : RenderingMode → String
  | .staff => "staff"
  | .circles => "circles"

/-- Serialization of a Clef. -/
def clefString : Clef → String
  | .treble => "treble"
  | .bass => "bass"

/-- `JSON.stringify` of one NoteOrRest: optional properties are omitted when
undefined. -/
def noteJson : NoteOrRest → Json
  | .note p o d l a =>
      .obj ([("type", .str "note"), ("pitch", .str (pitchString p)),
             ("octave", .str (octaveString o)), ("duration", .str (durationString d))]
        ++ (match l with | none => [] | some s => [("lyric", .str s)])
        ++ (match a with | none => [] | some b => [("accented", .bool b)]))
  | .rest d => .obj [("type", .str "rest"), ("duration", .str (durationString d))]

/-- `JSON.stringify` of one Part. -/
def partJson (p : Part) : Json :=
  .obj ((match p.name with | none => [] | some n => [("name", .str n)])
    ++ [("notes", .arr (p.notes.map noteJson))])

/-- The JSON tree `saveScore` serializes for a Score via `JSON.stringify`. -/
def saveScoreJson (s : Score) : Json :=
  .obj ([("title", .str s.title)]
    ++ (match s.tempo with | none => [] | some t => [("tempo", .num t)])
    ++ [("renderingMode", .str (renderingModeString s.renderingMode)),
        ("timeSignature", .obj [("beats", .num s.timeSignature.beats),
                                ("beatValue", .num s.timeSignature.beatValue)]),
        ("clef", .str (clefString s.clef)),
        ("parts", .arr (s.parts.map partJson))])

end Persist

/-! Observation functions and spec-side descriptions used by the theorems. -/

/-- The `(partIndex, noteIndex)` tag of a flattened note. -/
def tagOf (t : TaggedNote) : ℕ × ℕ := (t.partIndex, t.noteIndex)

namespace Staff

/-- The `(partIndex, noteIndex)` tag of a staff note layout. -/
def noteTag (nl : NoteLayout) : ℕ × ℕ := (nl.partIndex, nl.noteIndex)

/-- The width-independent data of a staff note layout: everything but `x`. -/
def noteProj (nl : NoteLayout) : ℕ × ℕ × ℚ × Bool × Option Octave :=
  (nl.partIndex, nl.noteIndex, nl.y, nl.isRest, nl.octave)

/-- The width-independent data a flattened note is mapped to (its layout entry
at an arbitrary x position, projected). -/
def noteSpec (clef : Clef) (t : TaggedNote) : ℕ × ℕ × ℚ × Bool × Option Octave :=
  noteProj (staffEntry clef t 0)

end Staff

namespace Circles

/-- Sub-circle octaves of a circle entry, if the entry has sub-circles. -/
def subOctaves (c : CircleLayout) : Option (List (Option Octave)) :=
  c.subCircles.map (List.map SubCircle.octave)

/-- Sub-circle lyrics of a circle entry, if the entry has sub-circles. -/
def subLyrics (c : CircleLayout) : Option (List (Option String)) :=
  c.subCircles.map (List.map SubCircle.lyric)

/-- Position-independent geometry of a circle entry: rest flag, radius, and the
sub-circles' offsets from the entry center together with their radii. -/
def geomProj (c : CircleLayout) : Bool × ℚ × Option (List (ℚ × ℚ × ℚ)) :=
  (c.isRest, c.radius,
   c.subCircles.map (List.map (fun sc => (sc.cx - c.cx, sc.cy - c.cy, sc.radius))))

/-- Spec-side per-duration sizing rule, written from the specification: with
base radius r, a whole note is a single circle of radius 1.8r, a half note
1.4r, a quarter note exactly r; an eighth note is two sub-circles of radius
0.6r side by side at the same y (offsets ±gap/2 with gap = 2.2·0.6r); a
sixteenth note is four sub-circles of radius 0.4r in a 2×2 grid (offsets
±gap/2 in both axes with gap = 2.4·0.4r); a rest is a radius-0 placeholder. -/
def sizingSpec (r : ℚ) (t : TaggedNote) : Bool × ℚ × Option (List (ℚ × ℚ × ℚ)) :=
  match t.note with
  | .rest _ => (true, 0, none)
  | .note _ _ d _ _ =>
      match d with
      | .whole => (false, 1.8 * r, none)
      | .half => (false, 1.4 * r, none)
      | .quarter => (false, r, none)
      | .eighth =>
          (false, 0.6 * r,
           some [(-(0.6 * r * 2.2 / 2), 0, 0.6 * r), (0.6 * r * 2.2 / 2, 0, 0.6 * r)])
      | .sixteenth =>
          (false, 0.4 * r,
           some [(-(0.4 * r * 2.4 / 2), -(0.4 * r * 2.4 / 2), 0.4 * r),
                 (0.4 * r * 2.4 / 2, -(0.4 * r * 2.4 / 2), 0.4 * r),
                 (-(0.4 * r * 2.4 / 2), 0.4 * r * 2.4 / 2, 0.4 * r),
                 (0.4 * r * 2.4 / 2, 0.4 * r * 2.4 / 2, 0.4 * r)])

/-- Octave/lyric metadata of a circle entry and of its sub-circles. -/
def metaProj (c : CircleLayout) :
    Option Octave × Option String × Option (List (Option Octave)) × Option (List (Option String)) :=
  (c.octave, c.lyric, subOctaves c, subLyrics c)

/-- What the metadata of a flattened note's circle entry is: the note's octave
and lyric on the entry itself, and nothing on any sub-circle. -/
def metaSpec (t : TaggedNote) :
    Option Octave × Option String × Option (List (Option Octave)) × Option (List (Option String)) :=
  match t.note with
  | .rest _ => (none, none, none, none)
  | .note _ o d l _ =>
      match d with
      | .eighth => (some o, l, some [none, none], some [none, none])
      | .sixteenth => (some o, l, some [none, none, none, none], some [none, none, none, none])
      | _ => (some o, l, none, none)

/-- Position-independent entry data used for the width-invariance claim: tag,
rest flag, radius, octave, lyric, and sub-circle offsets and radii. -/
def circleProj (c : CircleLayout) :
    ℕ × ℕ × Option Octave × Option String × (Bool × ℚ × Option (List (ℚ × ℚ × ℚ))) :=
  (c.partIndex, c.noteIndex, c.octave, c.lyric, geomProj c)

/-- The value `circleProj` takes on a flattened note's entry, computed from the
note and the configuration alone (entry placed at the origin). -/
def circleSpec (config : CirclesLayoutConfig) (t : TaggedNote) :
    ℕ × ℕ × Option Octave × Option String × (Bool × ℚ × Option (List (ℚ × ℚ × ℚ))) :=
  circleProj (circleEntry config (config.circleSize / 2) t 0 0)

end Circles

/-! Concrete fixtures used by witnesses and counterexamples. -/

/-- A quarter note at the given pitch, middle octave, no lyric, not accented. -/
def qnote (p : Pitch) : NoteOrRest := .note p .middle .quarter none none

/-- An eighth note at the given pitch, middle octave. -/
def enote (p : Pitch) : NoteOrRest := .note p .middle .eighth none none

/-- Four quarter notes in 4/4 (the staff layout test's first score). -/
def score44 : Score :=
  ⟨"Test Score", none, .staff, ⟨4, 4⟩, .treble, [⟨none, [qnote .C, qnote .D, qnote .E, qnote .F]⟩]⟩

/-- Six quarter notes in 3/4. -/
def score34 : Score :=
  ⟨"Waltz", none, .staff, ⟨3, 4⟩, .treble,
   [⟨none, [qnote .C, qnote .D, qnote .E, qnote .F, qnote .G, qnote .A]⟩]⟩

/-- Twelve eighth notes in 6/8. -/
def score68 : Score :=
  ⟨"Compound", none, .staff, ⟨6, 8⟩, .treble,
   [⟨none, [enote .C, enote .D, enote .E, enote .F, enote .G, enote .A,
            enote .H, enote .C, enote .D, enote .E, enote .F, enote .G]⟩]⟩

/-- A score with no notes at all. -/
def emptyScore : Score := ⟨"Empty", none, .staff, ⟨4, 4⟩, .treble, []⟩

/-- A degenerate staff configuration: zero usable width forces a wrap after
every note, and zero `staffHeight` and `systemSpacing` make consecutive
systems share their vertical position. -/
def degenerateConfig : Staff.LayoutConfig :=
  { canvasWidth := 0, staffLineSpacing := 0, noteSpacing := 1, marginLeft := 0,
    marginTop := 0, staffHeight := 0, systemSpacing := 0 }

/-- Two quarter notes, enough to produce two systems under
`degenerateConfig`. -/
def twoNoteScore : Score :=
  ⟨"Two", none, .staff, ⟨4, 4⟩, .treble, [⟨none, [qnote .C, qnote .D]⟩]⟩

/-- A score whose single note is an eighth note with a lyric, in the lower
octave. -/
def eighthLyricScore : Score :=
  ⟨"La", none, .circles, ⟨4, 4⟩, .treble,
   [⟨none, [.note .C .lower .eighth (some "la") none]⟩]⟩

/-- The duration of every flattened note of a score, in flattened order. -/
def flatDurations (score : Score) : List Duration :=
  (flattenScore score).map (fun t => durationOf t.note)

/-- Thirty quarter notes: enough to wrap into two systems under the default
staff configuration. -/
def longScore : Score :=
  ⟨"Long", none, .staff, ⟨4, 4⟩, .treble, [⟨none, List.replicate 30 (qnote .C)⟩]⟩

/-- A JSON score document with the given value in the `timeSignature` slot and
all other fields fixed and valid. -/
def Persist.scoreJsonWithTS (ts : Persist.Json) : Persist.Json :=
  .obj [("title", .str "t"), ("renderingMode", .str "staff"), ("clef", .str "treble"),
        ("timeSignature", ts), ("parts", .arr [])]

/-- The Score `loadScore` produces from `scoreJsonWithTS` with numeric beats
`b` and beatValue `bv`. -/
def Persist.scoreWithTS (b bv : ℚ) : Score := ⟨"t", none, .staff, ⟨b, bv⟩, .treble, []⟩

end ColorScore

/-! Helper lemmas shared by the claim theorems. -/

namespace ColorScore

lemma staffStep_collected (config : Staff.LayoutConfig) (clef : Clef) (bpm : ℚ)
    (s : Staff.StaffState) (t : TaggedNote) :
    Staff.collectedNotes (Staff.staffStep config clef bpm s t)
      = Staff.collectedNotes s ++ [Staff.staffEntry clef t s.currentX] := by
  unfold Staff.staffStep Staff.collectedNotes
  by_cases hbar : bpm ≤ s.currentBeats + Staff.DURATION_TO_BEATS (durationOf t.note) <;>
    by_cases hwrap : config.canvasWidth - config.marginLeft < s.currentX + config.noteSpacing <;>
      simp [hbar, hwrap]

lemma staff_foldl_collected_map {α : Type} (config : Staff.LayoutConfig) (clef : Clef) (bpm : ℚ)
    (proj : Staff.NoteLayout → α) (g : TaggedNote → α)
    (h : ∀ t x, proj (Staff.staffEntry clef t x) = g t) :
    ∀ (ts : List TaggedNote) (s : Staff.StaffState),
      (Staff.collectedNotes (ts.foldl (Staff.staffStep config clef bpm) s)).map proj
        = (Staff.collectedNotes s).map proj ++ ts.map g
  | [], s => by simp
  | t :: ts, s => by
      rw [List.foldl_cons, staff_foldl_collected_map config clef bpm proj g h ts _,
        staffStep_collected]
      simp [h]

lemma staff_postprocess (F : Staff.StaffState) :
    ((if (if F.cur.notes.length > 0 then F.systems ++ [F.cur] else F.systems).length = 0
        then (if F.cur.notes.length > 0 then F.systems ++ [F.cur] else F.systems) ++ [F.cur]
        else (if F.cur.notes.length > 0 then F.systems ++ [F.cur] else F.systems)).map
        Staff.StaffSystem.notes).flatten = Staff.collectedNotes F := by
  by_cases h1 : F.cur.notes.length > 0
  · simp [h1, Staff.collectedNotes]
  · have h1' : F.cur.notes = [] := List.length_eq_zero.mp (Nat.eq_zero_of_not_pos h1)
    by_cases h2 : F.systems = []
    · simp [h1, h2, Staff.collectedNotes, h1']
    · have h2' : F.systems.length ≠ 0 := by simpa [List.length_eq_zero] using h2
      simp [h1, h2', Staff.collectedNotes, h1']

lemma staff_joined_eq_collected (score : Score) (config : Staff.LayoutConfig) :
    Staff.joinedNotes (Staff.computeLayout score config)
      = Staff.collectedNotes ((flattenScore score).foldl
          (Staff.staffStep config score.clef
            (score.timeSignature.beats * (4 / score.timeSignature.beatValue)))
          (Staff.staffInit config)) :=
  staff_postprocess _

lemma staff_joined_map {α : Type} (score : Score) (config : Staff.LayoutConfig)
    (proj : Staff.NoteLayout → α) (g : TaggedNote → α)
    (h : ∀ t x, proj (Staff.staffEntry score.clef t x) = g t) :
    (Staff.joinedNotes (Staff.computeLayout score config)).map proj
      = (flattenScore score).map g := by
  rw [staff_joined_eq_collected]
  rw [staff_foldl_collected_map _ _ _ proj g h]
  simp [Staff.staffInit, Staff.collectedNotes]

lemma staffStep_beats (config : Staff.LayoutConfig) (clef : Clef) (bpm : ℚ)
    (s : Staff.StaffState) (t : TaggedNote) :
    (Staff.staffStep config clef bpm s t).currentBeats
      = if bpm ≤ s.currentBeats + Staff.DURATION_TO_BEATS (durationOf t.note) then 0
        else s.currentBeats + Staff.DURATION_TO_BEATS (durationOf t.note) := by
  unfold Staff.staffStep
  by_cases hbar : bpm ≤ s.currentBeats + Staff.DURATION_TO_BEATS (durationOf t.note) <;>
    by_cases hwrap : config.canvasWidth - config.marginLeft < s.currentX + config.noteSpacing <;>
      simp [hbar, hwrap]

lemma staffStep_bars (config : Staff.LayoutConfig) (clef : Clef) (bpm : ℚ)
    (s : Staff.StaffState) (t : TaggedNote) :
    Staff.stateBars (Staff.staffStep config clef bpm s t)
      = Staff.stateBars s
        + if bpm ≤ s.currentBeats + Staff.DURATION_TO_BEATS (durationOf t.note) then 1 else 0 := by
  unfold Staff.staffStep Staff.stateBars
  by_cases hbar : bpm ≤ s.currentBeats + Staff.DURATION_TO_BEATS (durationOf t.note) <;>
    by_cases hwrap : config.canvasWidth - config.marginLeft < s.currentX + config.noteSpacing <;>
      simp [hbar, hwrap] <;> omega

lemma staff_uniform_bars (config : Staff.LayoutConfig) (clef : Clef) (m : ℕ) (b : ℚ) (hb : 0 < b) :
    ∀ (ts : List TaggedNote) (s : Staff.StaffState) (j : ℕ), j < m →
      (∀ t ∈ ts, Staff.DURATION_TO_BEATS (durationOf t.note) = b) →
      s.currentBeats = (j : ℚ) * b →
      Staff.stateBars (ts.foldl (Staff.staffStep config clef ((m : ℚ) * b)) s)
        = Staff.stateBars s + (j + ts.length) / m
  | [], s, j, hj, _, _ => by simp [Nat.div_eq_of_lt hj]
  | t :: ts, s, j, hj, hts, hc => by
      rw [List.foldl_cons]
      have hbt : Staff.DURATION_TO_BEATS (durationOf t.note) = b := hts t (by simp)
      have hbeats := staffStep_beats config clef ((m : ℚ) * b) s t
      have hbars := staffStep_bars config clef ((m : ℚ) * b) s t
      rw [hbt, hc] at hbeats hbars
      have hsum : (j : ℚ) * b + b = ((j + 1 : ℕ) : ℚ) * b := by push_cast; ring
      by_cases hcase : j + 1 = m
      · have hcond : (m : ℚ) * b ≤ (j : ℚ) * b + b := by rw [hsum, hcase]
        rw [if_pos hcond] at hbeats hbars
        have hrec := staff_uniform_bars config clef m b hb ts
          (Staff.staffStep config clef ((m : ℚ) * b) s t) 0
          (lt_of_le_of_lt (Nat.zero_le _) hj)
          (fun u hu => hts u (by simp [hu])) (by rw [hbeats]; simp)
        rw [Nat.zero_add] at hrec
        rw [hrec, hbars]
        have hlen : j + (ts.length + 1) = ts.length + m := by omega
        rw [List.length_cons, hlen, Nat.add_div_right _ (by omega : 0 < m)]
        omega
      · have hlt : j + 1 < m := lt_of_le_of_ne (Nat.succ_le_of_lt hj) hcase
        have hcond : ¬ ((m : ℚ) * b ≤ (j : ℚ) * b + b) := by
          rw [hsum]
          intro hle
          have hmle : (m : ℚ) ≤ ((j + 1 : ℕ) : ℚ) := le_of_mul_le_mul_right hle hb
          have : m ≤ j + 1 := by exact_mod_cast hmle
          omega
        rw [if_neg hcond] at hbeats hbars
        have hrec := staff_uniform_bars config clef m b hb ts
          (Staff.staffStep config clef ((m : ℚ) * b) s t) (j + 1) hlt
          (fun u hu => hts u (by simp [hu])) (by rw [hbeats, hsum])
        rw [hrec, hbars]
        have hlen : j + 1 + ts.length = j + (t :: ts).length := by
          simp only [List.length_cons]
          omega
        rw [hlen]
        omega

lemma staff_foldl_inv (config : Staff.LayoutConfig) (clef : Clef) (bpm : ℚ) :
    ∀ (ts : List TaggedNote) (s : Staff.StaffState),
      (s.cur.notes = [] → s.cur.barLines = []) →
      ((ts.foldl (Staff.staffStep config clef bpm) s).cur.notes = [] →
        (ts.foldl (Staff.staffStep config clef bpm) s).cur.barLines = [])
  | [], s, h => h
  | t :: ts, s, h => by
      rw [List.foldl_cons]
      refine staff_foldl_inv config clef bpm ts _ ?_
      unfold Staff.staffStep
      by_cases hbar : bpm ≤ s.currentBeats + Staff.DURATION_TO_BEATS (durationOf t.note) <;>
        by_cases hwrap : config.canvasWidth - config.marginLeft < s.currentX + config.noteSpacing <;>
          simp [hbar, hwrap]

lemma staff_postprocess_bars (F : Staff.StaffState) (hinv : F.cur.notes = [] → F.cur.barLines = []) :
    ((if (if F.cur.notes.length > 0 then F.systems ++ [F.cur] else F.systems).length = 0
        then (if F.cur.notes.length > 0 then F.systems ++ [F.cur] else F.systems) ++ [F.cur]
        else (if F.cur.notes.length > 0 then F.systems ++ [F.cur] else F.systems)).map
        (fun sys => sys.barLines.length)).sum = Staff.stateBars F := by
  by_cases h1 : F.cur.notes.length > 0
  · simp [h1, Staff.stateBars]
  · have h1' : F.cur.notes = [] := List.length_eq_zero.mp (Nat.eq_zero_of_not_pos h1)
    have hbl : F.cur.barLines = [] := hinv h1'
    by_cases h2 : F.systems = []
    · simp [h1, h2, Staff.stateBars, hbl]
    · have h2' : F.systems.length ≠ 0 := by simpa [List.length_eq_zero] using h2
      simp [h1, h2', Staff.stateBars, hbl]

lemma staff_totalBars_eq (score : Score) (config : Staff.LayoutConfig) :
    Staff.totalBarLines (Staff.computeLayout score config)
      = Staff.stateBars ((flattenScore score).foldl
          (Staff.staffStep config score.clef
            (score.timeSignature.beats * (4 / score.timeSignature.beatValue)))
          (Staff.staffInit config)) :=
  staff_postprocess_bars _
    (staff_foldl_inv _ _ _ (flattenScore score) (Staff.staffInit config) (fun _ => rfl))

lemma staff_family_bars (score : Score) (config : Staff.LayoutConfig) (n m : ℕ) (b : ℚ)
    (hb : 0 < b) (hm : 0 < m)
    (hbpm : score.timeSignature.beats * (4 / score.timeSignature.beatValue) = (m : ℚ) * b)
    (hts : (flattenScore score).map (fun t => Staff.DURATION_TO_BEATS (durationOf t.note))
            = List.replicate n b) :
    Staff.totalBarLines (Staff.computeLayout score config) = n / m := by
  rw [staff_totalBars_eq, hbpm]
  have hall : ∀ t ∈ flattenScore score, Staff.DURATION_TO_BEATS (durationOf t.note) = b :=
    fun t ht => List.eq_of_mem_replicate (hts ▸ List.mem_map_of_mem _ ht)
  have hlen : (flattenScore score).length = n := by
    have := congrArg List.length hts
    simpa using this
  rw [staff_uniform_bars config score.clef m b hb (flattenScore score) _ 0 hm hall
    (by simp [Staff.staffInit])]
  simp [Staff.stateBars, Staff.staffInit, hlen]

lemma staff_chain_step (config : Staff.LayoutConfig) (clef : Clef) (bpm : ℚ)
    (s : Staff.StaffState) (t : TaggedNote)
    (h : List.Chain' (fun y1 y2 => y2 = y1 + (config.staffHeight + config.systemSpacing))
          ((s.systems ++ [s.cur]).map Staff.StaffSystem.startY)) :
    List.Chain' (fun y1 y2 => y2 = y1 + (config.staffHeight + config.systemSpacing))
      (((Staff.staffStep config clef bpm s t).systems
          ++ [(Staff.staffStep config clef bpm s t).cur]).map Staff.StaffSystem.startY) := by
  unfold Staff.staffStep
  by_cases hbar : bpm ≤ s.currentBeats + Staff.DURATION_TO_BEATS (durationOf t.note) <;>
    by_cases hwrap : config.canvasWidth - config.marginLeft < s.currentX + config.noteSpacing <;>
      simp only [hbar, hwrap, if_true, if_false, ite_true, ite_false, if_pos, if_neg,
        not_false_iff, List.map_append, List.append_assoc, List.map_cons, List.map_nil] <;>
      simp only [List.map_append, List.map_cons, List.map_nil] at h
  · rw [List.chain'_append] at h ⊢
    refine ⟨h.1, ?_, ?_⟩
    · simp [add_assoc]
    · intro x hx y hy
      simp at hy
      subst hy
      exact h.2.2 x hx _ rfl
  · exact h
  · rw [List.chain'_append] at h ⊢
    refine ⟨h.1, ?_, ?_⟩
    · simp [add_assoc]
    · intro x hx y hy
      simp at hy
      subst hy
      exact h.2.2 x hx _ rfl
  · exact h

lemma staff_foldl_chain (config : Staff.LayoutConfig) (clef : Clef) (bpm : ℚ) :
    ∀ (ts : List TaggedNote) (s : Staff.StaffState),
      List.Chain' (fun y1 y2 => y2 = y1 + (config.staffHeight + config.systemSpacing))
        ((s.systems ++ [s.cur]).map Staff.StaffSystem.startY) →
      List.Chain' (fun y1 y2 => y2 = y1 + (config.staffHeight + config.systemSpacing))
        (((ts.foldl (Staff.staffStep config clef bpm) s).systems
          ++ [(ts.foldl (Staff.staffStep config clef bpm) s).cur]).map Staff.StaffSystem.startY)
  | [], _, h => h
  | t :: ts, s, h => by
      rw [List.foldl_cons]
      exact staff_foldl_chain config clef bpm ts _ (staff_chain_step config clef bpm s t h)

lemma staff_postprocess_chain (config : Staff.LayoutConfig) (F : Staff.StaffState)
    (h : List.Chain' (fun y1 y2 => y2 = y1 + (config.staffHeight + config.systemSpacing))
          ((F.systems ++ [F.cur]).map Staff.StaffSystem.startY)) :
    List.Chain' (fun y1 y2 => y2 = y1 + (config.staffHeight + config.systemSpacing))
      ((if (if F.cur.notes.length > 0 then F.systems ++ [F.cur] else F.systems).length = 0
          then (if F.cur.notes.length > 0 then F.systems ++ [F.cur] else F.systems) ++ [F.cur]
          else (if F.cur.notes.length > 0 then F.systems ++ [F.cur] else F.systems)).map
          Staff.StaffSystem.startY) := by
  by_cases h1 : F.cur.notes.length > 0
  · simpa [h1] using h
  · by_cases h2 : F.systems = []
    · simp [h1, h2]
    · have h2' : ¬(F.systems.length = 0) := by simpa [List.length_eq_zero] using h2
      rw [if_neg h1, if_neg h2']
      rw [List.map_append] at h
      exact List.Chain'.left_of_append h

lemma staff_layout_chain (score : Score) (config : Staff.LayoutConfig) :
    List.Chain' (fun y1 y2 => y2 = y1 + (config.staffHeight + config.systemSpacing))
      ((Staff.computeLayout score config).systems.map Staff.StaffSystem.startY) :=
  staff_postprocess_chain config _
    (staff_foldl_chain config score.clef _ (flattenScore score) (Staff.staffInit config)
      (by simp [Staff.staffInit]))

lemma tagNotes_map_tagOf (pIdx : ℕ) :
    ∀ (k : ℕ) (ns : List NoteOrRest),
      (tagNotes pIdx k ns).map tagOf = (List.range' k ns.length).map (fun i => (pIdx, i))
  | _, [] => rfl
  | k, n :: ns => by
      rw [tagNotes, List.map_cons, List.length_cons, List.range'_succ, List.map_cons,
        tagNotes_map_tagOf pIdx (k + 1) ns]
      rfl

lemma tagNotes_partIndex (pIdx : ℕ) :
    ∀ (k : ℕ) (ns : List NoteOrRest) (t : TaggedNote), t ∈ tagNotes pIdx k ns →
      t.partIndex = pIdx
  | k, n :: ns, t, ht => by
      rw [tagNotes] at ht
      rcases List.mem_cons.mp ht with h | h
      · rw [h]
      · exact tagNotes_partIndex pIdx (k + 1) ns t h

lemma flattenParts_partIndex_ge :
    ∀ (ps : List Part) (k : ℕ) (t : TaggedNote), t ∈ flattenParts k ps → k ≤ t.partIndex
  | p :: ps, k, t, ht => by
      rw [flattenParts] at ht
      rcases List.mem_append.mp ht with h | h
      · rw [tagNotes_partIndex k 0 p.notes t h]
      · exact Nat.le_of_succ_le (flattenParts_partIndex_ge ps (k + 1) t h)

lemma flattenParts_tags_nodup :
    ∀ (ps : List Part) (k : ℕ), ((flattenParts k ps).map tagOf).Nodup
  | [], _ => List.nodup_nil
  | p :: ps, k => by
      rw [flattenParts, List.map_append]
      refine List.Nodup.append ?_ (flattenParts_tags_nodup ps (k + 1)) ?_
      · rw [tagNotes_map_tagOf]
        refine (List.nodup_range' _ _).map ?_
        intro i j hij
        exact (Prod.mk.injEq _ _ _ _).mp hij |>.2
      · intro a ha hb
        rcases List.mem_map.mp ha with ⟨t, ht, rfl⟩
        rcases List.mem_map.mp hb with ⟨u, hu, huv⟩
        have h1 : t.partIndex = k := tagNotes_partIndex k 0 p.notes t ht
        have h2 : k + 1 ≤ u.partIndex := flattenParts_partIndex_ge ps (k + 1) u hu
        have : t.partIndex = u.partIndex := congrArg Prod.fst huv.symm
        omega

lemma flattenScore_tags_nodup (score : Score) :
    ((flattenScore score).map tagOf).Nodup :=
  flattenParts_tags_nodup score.parts 0

lemma circlesStep_collected (config : Circles.CirclesLayoutConfig) (r maxX : ℚ)
    (s : Circles.CircleState) (t : TaggedNote) :
    ∃ x y, Circles.collectedCircles (Circles.circlesStep config r maxX s t)
      = Circles.collectedCircles s ++ [Circles.circleEntry config r t x y] := by
  unfold Circles.circlesStep Circles.collectedCircles
  by_cases hwrap : maxX < s.currentX + Circles.durationToPositions (durationOf t.note) * config.circleSpacing
      - config.circleSpacing / 2 ∧ s.currentRow ≠ []
  · exact ⟨config.marginLeft + r, s.currentRowY + config.rowSpacing, by simp [hwrap]⟩
  · exact ⟨s.currentX, s.currentRowY, by simp [hwrap]⟩

lemma circles_foldl_collected_map {α : Type} (config : Circles.CirclesLayoutConfig) (r maxX : ℚ)
    (proj : Circles.CircleLayout → α) (g : TaggedNote → α)
    (h : ∀ t x y, proj (Circles.circleEntry config r t x y) = g t) :
    ∀ (ts : List TaggedNote) (s : Circles.CircleState),
      (Circles.collectedCircles (ts.foldl (Circles.circlesStep config r maxX) s)).map proj
        = (Circles.collectedCircles s).map proj ++ ts.map g
  | [], s => by simp
  | t :: ts, s => by
      rw [List.foldl_cons, circles_foldl_collected_map config r maxX proj g h ts _]
      rcases circlesStep_collected config r maxX s t with ⟨x, y, hxy⟩
      rw [hxy]
      simp [h]

lemma circles_postprocess (F : Circles.CircleState) :
    ((if (if F.currentRow ≠ [] then F.rows ++ [{ startY := F.currentRowY, circles := F.currentRow }]
          else F.rows) = []
        then [({ startY := F.currentRowY, circles := [] } : Circles.CircleRow)]
        else (if F.currentRow ≠ [] then F.rows ++ [{ startY := F.currentRowY, circles := F.currentRow }]
          else F.rows)).map Circles.CircleRow.circles).flatten
      = Circles.collectedCircles F := by
  by_cases h1 : F.currentRow = []
  · by_cases h2 : F.rows = []
    · simp [h1, h2, Circles.collectedCircles]
    · simp [h1, h2, Circles.collectedCircles]
  · have : F.rows ++ [({ startY := F.currentRowY, circles := F.currentRow } : Circles.CircleRow)] ≠ [] := by
      simp
    simp [h1, this, Circles.collectedCircles]

lemma circles_joined_eq_collected (score : Score) (config : Circles.CirclesLayoutConfig) :
    Circles.joinedCircles (Circles.computeCirclesLayout score config)
      = Circles.collectedCircles ((flattenScore score).foldl
          (Circles.circlesStep config (config.circleSize / 2)
            (config.canvasWidth - config.marginLeft - config.circleSize / 2))
          (Circles.circlesInit config (config.circleSize / 2))) :=
  circles_postprocess _

lemma circles_joined_map {α : Type} (score : Score) (config : Circles.CirclesLayoutConfig)
    (proj : Circles.CircleLayout → α) (g : TaggedNote → α)
    (h : ∀ t x y, proj (Circles.circleEntry config (config.circleSize / 2) t x y) = g t) :
    (Circles.joinedCircles (Circles.computeCirclesLayout score config)).map proj
      = (flattenScore score).map g := by
  rw [circles_joined_eq_collected]
  rw [circles_foldl_collected_map _ _ _ proj g h]
  simp [Circles.circlesInit, Circles.collectedCircles]

lemma staff_noteTag_entry (clef : Clef) (t : TaggedNote) (x : ℚ) :
    Staff.noteTag (Staff.staffEntry clef t x) = tagOf t := by
  rcases t with ⟨n, pIdx, nIdx⟩
  cases n <;> rfl

lemma staff_noteProj_entry (clef : Clef) (t : TaggedNote) (x : ℚ) :
    Staff.noteProj (Staff.staffEntry clef t x) = Staff.noteSpec clef t := by
  rcases t with ⟨n, pIdx, nIdx⟩
  cases n <;> rfl

lemma circle_geomProj_entry (config : Circles.CirclesLayoutConfig) (r : ℚ) (t : TaggedNote)
    (x y : ℚ) :
    Circles.geomProj (Circles.circleEntry config r t x y) = Circles.sizingSpec r t := by
  rcases t with ⟨n, pIdx, nIdx⟩
  cases n with
  | rest d => rfl
  | note p o d l a =>
      cases d <;>
        simp [Circles.geomProj, Circles.circleEntry, Circles.computeNoteCircle,
          Circles.sizingSpec] <;>
        norm_num <;> ring_nf <;> norm_num

lemma circle_metaProj_entry (config : Circles.CirclesLayoutConfig) (r : ℚ) (t : TaggedNote)
    (x y : ℚ) :
    Circles.metaProj (Circles.circleEntry config r t x y) = Circles.metaSpec t := by
  rcases t with ⟨n, pIdx, nIdx⟩
  cases n with
  | rest d => rfl
  | note p o d l a => cases d <;> rfl

lemma circle_circleProj_entry (config : Circles.CirclesLayoutConfig) (t : TaggedNote) (x y : ℚ) :
    Circles.circleProj (Circles.circleEntry config (config.circleSize / 2) t x y)
      = Circles.circleSpec config t := by
  unfold Circles.circleProj Circles.circleSpec Circles.circleProj
  rw [circle_geomProj_entry, circle_geomProj_entry]
  rcases t with ⟨n, pIdx, nIdx⟩
  cases n with
  | rest d => rfl
  | note p o d l a => cases d <;> rfl

lemma circleSpec_width (config : Circles.CirclesLayoutConfig) (w : ℚ) (t : TaggedNote) :
    Circles.circleSpec { config with canvasWidth := w } t = Circles.circleSpec config t := by
  rcases t with ⟨n, pIdx, nIdx⟩
  cases n with
  | rest d => rfl
  | note p o d l a => cases d <;> rfl

lemma staff_foldl_sys_nonempty (config : Staff.LayoutConfig) (clef : Clef) (bpm : ℚ) :
    ∀ (ts : List TaggedNote) (s : Staff.StaffState),
      (∀ sys ∈ s.systems, sys.notes ≠ []) →
      ∀ sys ∈ (ts.foldl (Staff.staffStep config clef bpm) s).systems, sys.notes ≠ []
  | [], _, h => h
  | t :: ts, s, h => by
      rw [List.foldl_cons]
      refine staff_foldl_sys_nonempty config clef bpm ts _ ?_
      intro sys hsys
      unfold Staff.staffStep at hsys
      by_cases hbar : bpm ≤ s.currentBeats + Staff.DURATION_TO_BEATS (durationOf t.note) <;>
        by_cases hwrap : config.canvasWidth - config.marginLeft < s.currentX + config.noteSpacing <;>
          simp [hbar, hwrap] at hsys
      all_goals
        first
        | exact h sys hsys
        | (cases hsys with
           | inl hs => exact h sys hs
           | inr hEq => subst hEq; simp)

lemma staff_collected_length (config : Staff.LayoutConfig) (clef : Clef) (bpm : ℚ)
    (ts : List TaggedNote) (s : Staff.StaffState) :
    (Staff.collectedNotes (ts.foldl (Staff.staffStep config clef bpm) s)).length
      = (Staff.collectedNotes s).length + ts.length := by
  have h := staff_foldl_collected_map config clef bpm (fun _ => ()) (fun _ => ())
    (fun _ _ => rfl) ts s
  have := congrArg List.length h
  simpa using this

lemma staff_empty_layout (score : Score) (config : Staff.LayoutConfig)
    (h : flattenScore score = []) :
    Staff.computeLayout score config
      = { systems := [{ startX := config.marginLeft, startY := config.marginTop,
                        notes := [], barLines := [] }], config := config } := by
  unfold Staff.computeLayout
  rw [h]
  rfl

lemma staff_nonempty_layout (score : Score) (config : Staff.LayoutConfig)
    (h : flattenScore score ≠ []) :
    ∀ sys ∈ (Staff.computeLayout score config).systems, sys.notes ≠ [] := by
  have hne : Staff.collectedNotes ((flattenScore score).foldl
      (Staff.staffStep config score.clef
        (score.timeSignature.beats * (4 / score.timeSignature.beatValue)))
      (Staff.staffInit config)) ≠ [] := by
    intro hc
    have hl := staff_collected_length config score.clef
      (score.timeSignature.beats * (4 / score.timeSignature.beatValue))
      (flattenScore score) (Staff.staffInit config)
    rw [hc] at hl
    simp [Staff.staffInit, Staff.collectedNotes] at hl
    exact h (List.length_eq_zero.mp hl.symm)
  have hinv := staff_foldl_sys_nonempty config score.clef
    (score.timeSignature.beats * (4 / score.timeSignature.beatValue))
    (flattenScore score) (Staff.staffInit config) (by simp [Staff.staffInit])
  set F := (flattenScore score).foldl
      (Staff.staffStep config score.clef
        (score.timeSignature.beats * (4 / score.timeSignature.beatValue)))
      (Staff.staffInit config) with hF
  show ∀ sys ∈ (if (if F.cur.notes.length > 0 then F.systems ++ [F.cur] else F.systems).length = 0
      then (if F.cur.notes.length > 0 then F.systems ++ [F.cur] else F.systems) ++ [F.cur]
      else (if F.cur.notes.length > 0 then F.systems ++ [F.cur] else F.systems)), sys.notes ≠ []
  by_cases h1 : F.cur.notes.length > 0
  · rw [if_pos h1]
    have : (F.systems ++ [F.cur]).length ≠ 0 := by simp
    rw [if_neg this]
    intro sys hsys
    rcases List.mem_append.mp hsys with hs | hs
    · exact hinv sys hs
    · have : sys = F.cur := by simpa using hs
      rw [this]
      intro hnil
      rw [hnil] at h1
      simp at h1
  · have h1' : F.cur.notes = [] := List.length_eq_zero.mp (Nat.eq_zero_of_not_pos h1)
    have hsys_ne : F.systems.length ≠ 0 := by
      intro h0
      have : F.systems = [] := List.length_eq_zero.mp h0
      apply hne
      unfold Staff.collectedNotes
      rw [this, h1']
      rfl
    rw [if_neg h1, if_neg hsys_ne]
    exact hinv

lemma circles_foldl_rows_nonempty (config : Circles.CirclesLayoutConfig) (r maxX : ℚ) :
    ∀ (ts : List TaggedNote) (s : Circles.CircleState),
      (∀ row ∈ s.rows, row.circles ≠ []) →
      ∀ row ∈ (ts.foldl (Circles.circlesStep config r maxX) s).rows, row.circles ≠ []
  | [], _, h => h
  | t :: ts, s, h => by
      rw [List.foldl_cons]
      refine circles_foldl_rows_nonempty config r maxX ts _ ?_
      intro row hrow
      unfold Circles.circlesStep at hrow
      by_cases hwrap : maxX < s.currentX
          + Circles.durationToPositions (durationOf t.note) * config.circleSpacing
          - config.circleSpacing / 2 ∧ s.currentRow ≠ [] <;>
        simp [hwrap] at hrow
      · cases hrow with
        | inl hs => exact h row hs
        | inr hEq => subst hEq; simpa using hwrap.2
      · exact h row hrow

lemma circles_collected_length (config : Circles.CirclesLayoutConfig) (r maxX : ℚ)
    (ts : List TaggedNote) (s : Circles.CircleState) :
    (Circles.collectedCircles (ts.foldl (Circles.circlesStep config r maxX) s)).length
      = (Circles.collectedCircles s).length + ts.length := by
  have h := circles_foldl_collected_map config r maxX (fun _ => ()) (fun _ => ())
    (fun _ _ _ => rfl) ts s
  have := congrArg List.length h
  simpa using this

lemma circles_empty_layout (score : Score) (config : Circles.CirclesLayoutConfig)
    (h : flattenScore score = []) :
    (Circles.computeCirclesLayout score config).rows
      = [{ startY := config.marginTop + config.circleSize / 2, circles := [] }] := by
  unfold Circles.computeCirclesLayout
  rw [h]
  rfl

lemma circles_nonempty_layout (score : Score) (config : Circles.CirclesLayoutConfig)
    (h : flattenScore score ≠ []) :
    ∀ row ∈ (Circles.computeCirclesLayout score config).rows, row.circles ≠ [] := by
  have hne : Circles.collectedCircles ((flattenScore score).foldl
      (Circles.circlesStep config (config.circleSize / 2)
        (config.canvasWidth - config.marginLeft - config.circleSize / 2))
      (Circles.circlesInit config (config.circleSize / 2))) ≠ [] := by
    intro hc
    have hl := circles_collected_length config (config.circleSize / 2)
      (config.canvasWidth - config.marginLeft - config.circleSize / 2)
      (flattenScore score) (Circles.circlesInit config (config.circleSize / 2))
    rw [hc] at hl
    simp [Circles.circlesInit, Circles.collectedCircles] at hl
    exact h (List.length_eq_zero.mp hl.symm)
  have hinv := circles_foldl_rows_nonempty config (config.circleSize / 2)
    (config.canvasWidth - config.marginLeft - config.circleSize / 2)
    (flattenScore score) (Circles.circlesInit config (config.circleSize / 2))
    (by simp [Circles.circlesInit])
  set F := (flattenScore score).foldl
      (Circles.circlesStep config (config.circleSize / 2)
        (config.canvasWidth - config.marginLeft - config.circleSize / 2))
      (Circles.circlesInit config (config.circleSize / 2)) with hF
  show ∀ row ∈ (if (if F.currentRow ≠ []
        then F.rows ++ [{ startY := F.currentRowY, circles := F.currentRow }] else F.rows) = []
      then [({ startY := F.currentRowY, circles := [] } : Circles.CircleRow)]
      else (if F.currentRow ≠ []
        then F.rows ++ [{ startY := F.currentRowY, circles := F.currentRow }] else F.rows)),
    row.circles ≠ []
  by_cases h1 : F.currentRow = []
  · have hrows : F.rows ≠ [] := by
      intro h0
      apply hne
      unfold Circles.collectedCircles
      rw [h0, h1]
      rfl
    have hinner : (if F.currentRow ≠ []
        then F.rows ++ [{ startY := F.currentRowY, circles := F.currentRow }] else F.rows)
        = F.rows := if_neg (by simp [h1])
    rw [hinner, if_neg hrows]
    exact hinv
  · have hcat : F.rows ++ [({ startY := F.currentRowY, circles := F.currentRow } : Circles.CircleRow)] ≠ [] := by
      simp
    have hinner : (if F.currentRow ≠ []
        then F.rows ++ [{ startY := F.currentRowY, circles := F.currentRow }] else F.rows)
        = F.rows ++ [{ startY := F.currentRowY, circles := F.currentRow }] := if_pos h1
    rw [hinner, if_neg hcat]
    intro row hrow
    rcases List.mem_append.mp hrow with hs | hs
    · exact hinv row hs
    · have hrEq : row = { startY := F.currentRowY, circles := F.currentRow } := by simpa using hs
      rw [hrEq]
      simpa using h1

lemma validateNoteOrRest_noteJson (n : NoteOrRest) (pIdx nIdx : ℕ) :
    Persist.validateNoteOrRest (Persist.noteJson n) pIdx nIdx = .ok n := by
  cases n with
  | note p o d l a => cases p <;> cases o <;> cases d <;> cases l <;> cases a <;> rfl
  | rest d => cases d <;> rfl

lemma validateNotes_noteJson (pIdx : ℕ) :
    ∀ (ns : List NoteOrRest) (k : ℕ),
      Persist.validateNotes (ns.map Persist.noteJson) pIdx k = .ok ns
  | [], _ => rfl
  | n :: ns, k => by
      rw [List.map_cons]
      unfold Persist.validateNotes
      rw [validateNoteOrRest_noteJson, validateNotes_noteJson pIdx ns (k + 1)]
      rfl

lemma validatePart_partJson (p : Part) (i : ℕ) :
    Persist.validatePart (Persist.partJson p) i = .ok p := by
  rcases p with ⟨name, notes⟩
  cases name <;>
    simp [Persist.validatePart, Persist.partJson, Persist.validatePartFields,
      Persist.getField, validateNotes_noteJson] <;> rfl

lemma validateParts_partJson :
    ∀ (ps : List Part) (i : ℕ),
      Persist.validateParts (ps.map Persist.partJson) i = .ok ps
  | [], _ => rfl
  | p :: ps, i => by
      rw [List.map_cons]
      unfold Persist.validateParts
      rw [validatePart_partJson, validateParts_partJson ps (i + 1)]
      rfl

lemma loadScore_saveScoreJson (s : Score) :
    Persist.loadScore (Persist.saveScoreJson s) = .ok s := by
  rcases s with ⟨title, tempo, rm, ⟨b, bv⟩, clef, parts⟩
  have hparts := validateParts_partJson parts 0
  cases tempo <;> cases rm <;> cases clef <;>
    simp [Persist.loadScore, Persist.saveScoreJson, Persist.decodeTitle,
      Persist.decodeRenderingMode, Persist.decodeClef, Persist.decodeTimeSignature,
      Persist.decodeScoreParts, Persist.decodeTempo, Persist.getField,
      Persist.renderingModeString, Persist.clefString, Persist.renderingModeOfString,
      Persist.clefOfString, hparts] <;> rfl

end ColorScore

/-! Claim theorems. -/

namespace ColorScore

/-- C1: In staff layout, beats are accumulated in quarter-note units
(whole=4, half=2, quarter=1, eighth=0.5, sixteenth=0.25) against the
per-measure threshold `beats * (4 / beatValue)`; a bar line is inserted
exactly when the accumulated count reaches or exceeds the threshold, after
which the counter resets to zero (overflow dropped).  Consequently every
score of four quarter-duration entries in 4/4 has exactly 1 bar line, six
quarters in 3/4 have exactly 2, and twelve eighths in 6/8 have exactly 2. -/
theorem barline_counting :
    (Staff.DURATION_TO_BEATS .whole = 4 ∧ Staff.DURATION_TO_BEATS .half = 2
      ∧ Staff.DURATION_TO_BEATS .quarter = 1 ∧ Staff.DURATION_TO_BEATS .eighth = 0.5
      ∧ Staff.DURATION_TO_BEATS .sixteenth = 0.25)
    ∧ (∀ (config : Staff.LayoutConfig) (clef : Clef) (bpm : ℚ) (s : Staff.StaffState)
        (t : TaggedNote),
        (Staff.staffStep config clef bpm s t).currentBeats
          = (if bpm ≤ s.currentBeats + Staff.DURATION_TO_BEATS (durationOf t.note) then 0
             else s.currentBeats + Staff.DURATION_TO_BEATS (durationOf t.note))
        ∧ Staff.stateBars (Staff.staffStep config clef bpm s t)
          = Staff.stateBars s
            + (if bpm ≤ s.currentBeats + Staff.DURATION_TO_BEATS (durationOf t.note) then 1
               else 0))
    ∧ (∀ (score : Score) (config : Staff.LayoutConfig),
        score.timeSignature = ⟨4, 4⟩ → flatDurations score = List.replicate 4 .quarter →
        Staff.totalBarLines (Staff.computeLayout score config) = 1)
    ∧ (∀ (score : Score) (config : Staff.LayoutConfig),
        score.timeSignature = ⟨3, 4⟩ → flatDurations score = List.replicate 6 .quarter →
        Staff.totalBarLines (Staff.computeLayout score config) = 2)
    ∧ (∀ (score : Score) (config : Staff.LayoutConfig),
        score.timeSignature = ⟨6, 8⟩ → flatDurations score = List.replicate 12 .eighth →
        Staff.totalBarLines (Staff.computeLayout score config) = 2) := by
  refine ⟨⟨rfl, rfl, rfl, rfl, rfl⟩,
    fun config clef bpm s t => ⟨staffStep_beats config clef bpm s t,
      staffStep_bars config clef bpm s t⟩, ?_, ?_, ?_⟩
  · intro score config hts hd
    have hbeats : (flattenScore score).map
        (fun t => Staff.DURATION_TO_BEATS (durationOf t.note)) = List.replicate 4 1 := by
      have h := congrArg (List.map Staff.DURATION_TO_BEATS) hd
      unfold flatDurations at h
      rw [List.map_map] at h
      simpa [Function.comp, List.map_replicate, Staff.DURATION_TO_BEATS] using h
    exact staff_family_bars score config 4 4 1 (by norm_num) (by norm_num)
      (by rw [hts]; norm_num) hbeats
  · intro score config hts hd
    have hbeats : (flattenScore score).map
        (fun t => Staff.DURATION_TO_BEATS (durationOf t.note)) = List.replicate 6 1 := by
      have h := congrArg (List.map Staff.DURATION_TO_BEATS) hd
      unfold flatDurations at h
      rw [List.map_map] at h
      simpa [Function.comp, List.map_replicate, Staff.DURATION_TO_BEATS] using h
    exact staff_family_bars score config 6 3 1 (by norm_num) (by norm_num)
      (by rw [hts]; norm_num) hbeats
  · intro score config hts hd
    have hbeats : (flattenScore score).map
        (fun t => Staff.DURATION_TO_BEATS (durationOf t.note)) = List.replicate 12 0.5 := by
      have h := congrArg (List.map Staff.DURATION_TO_BEATS) hd
      unfold flatDurations at h
      rw [List.map_map] at h
      simpa [Function.comp, List.map_replicate, Staff.DURATION_TO_BEATS] using h
    exact staff_family_bars score config 12 6 0.5 (by norm_num) (by norm_num)
      (by rw [hts]; norm_num) hbeats

/-- C1 witness: the four-quarter-note score in 4/4 satisfies the hypotheses,
and the theorem yields exactly one bar line on it. -/
theorem barline_counting_witness :
    score44.timeSignature = (⟨4, 4⟩ : TimeSignature)
    ∧ flatDurations score44 = List.replicate 4 .quarter
    ∧ Staff.totalBarLines (Staff.computeLayout score44 Staff.DEFAULT_CONFIG) = 1 :=
  ⟨rfl, by decide, barline_counting.2.2.1 score44 Staff.DEFAULT_CONFIG rfl (by decide)⟩

/-- C2: pitchToStaffPosition is a total pure integer function equal to a
clef-specific base (its value at the lower register) plus register offsets
lower=+0, middle=+7, upper=+14; treble lower-E = 0, treble middle-C = 5,
bass lower-G = 0, bass middle-A = 8. -/
theorem pitch_position_spec :
    (∀ (p : Pitch) (c : Clef),
      Staff.pitchToStaffPosition p .middle c = Staff.pitchToStaffPosition p .lower c + 7
      ∧ Staff.pitchToStaffPosition p .upper c = Staff.pitchToStaffPosition p .lower c + 14)
    ∧ Staff.pitchToStaffPosition .E .lower .treble = 0
    ∧ Staff.pitchToStaffPosition .C .middle .treble = 5
    ∧ Staff.pitchToStaffPosition .G .lower .bass = 0
    ∧ Staff.pitchToStaffPosition .A .middle .bass = 8 := by
  refine ⟨fun p c => ?_, by decide, by decide, by decide, by decide⟩
  cases p <;> cases c <;> exact ⟨by decide, by decide⟩

/-- C3: In the circles layout with base radius r = circleSize/2, every
quarter note is a single circle of radius r, every half note 1.4r, every
whole note 1.8r, every eighth note two sub-circles of radius 0.6r side by
side at the same y, and every sixteenth note four sub-circles of radius
0.4r in a 2×2 grid — stated as: the geometry of each circle entry equals
the spec-side sizing rule applied to its source note. -/
theorem circle_sizing_spec (score : Score) (config : Circles.CirclesLayoutConfig) :
    (Circles.joinedCircles (Circles.computeCirclesLayout score config)).map Circles.geomProj
      = (flattenScore score).map (Circles.sizingSpec (config.circleSize / 2)) :=
  circles_joined_map score config _ _ (circle_geomProj_entry config (config.circleSize / 2))

/-- C4: serializing any well-formed Score to the JSON persistence format and
parsing it back with loadScore yields the original Score, every optional
field (tempo, lyric, accented, part name) preserved exactly. -/
theorem score_json_roundtrip (s : Score) :
    Persist.loadScore (Persist.saveScoreJson s) = .ok s :=
  loadScore_saveScoreJson s

/-- C5 counterexample: with a configuration whose staffHeight and
systemSpacing are both 0 (and a width that forces a wrap after every note),
two systems share startY = 0, so the systems' startY values are not strictly
increasing for every score and configuration as the claim states. -/
theorem staff_rows_counterexample :
    (Staff.computeLayout twoNoteScore degenerateConfig).systems.map Staff.StaffSystem.startY
      = [0, 0]
    ∧ ¬ List.Pairwise LT.lt
        ((Staff.computeLayout twoNoteScore degenerateConfig).systems.map
          Staff.StaffSystem.startY) := by
  have hmap : (Staff.computeLayout twoNoteScore degenerateConfig).systems.map
      Staff.StaffSystem.startY = [0, 0] := by
    norm_num [Staff.computeLayout, flattenScore, flattenParts, tagNotes, twoNoteScore, qnote,
      degenerateConfig, Staff.staffInit, Staff.staffStep, Staff.staffEntry, durationOf,
      Staff.DURATION_TO_BEATS]
  refine ⟨hmap, ?_⟩
  intro h
  rw [hmap] at h
  rcases List.pairwise_cons.mp h with ⟨h0, _⟩
  exact absurd (h0 0 (by simp)) (lt_irrefl 0)

/-- C5 (amended): each note/rest appears in exactly one system, the
concatenation of the systems' note lists preserves the flattened order with
its (partIndex, noteIndex) tags (which are pairwise distinct), and
consecutive systems' startY values differ by exactly
staffHeight + systemSpacing; whenever that sum is positive the startY values
are strictly increasing (non-overlapping rows). -/
theorem staff_partition_amended (score : Score) (config : Staff.LayoutConfig) :
    (Staff.joinedNotes (Staff.computeLayout score config)).map Staff.noteTag
      = (flattenScore score).map tagOf
    ∧ ((flattenScore score).map tagOf).Nodup
    ∧ List.Chain' (fun y1 y2 => y2 = y1 + (config.staffHeight + config.systemSpacing))
        ((Staff.computeLayout score config).systems.map Staff.StaffSystem.startY)
    ∧ (0 < config.staffHeight + config.systemSpacing →
        List.Pairwise LT.lt
          ((Staff.computeLayout score config).systems.map Staff.StaffSystem.startY)) := by
  refine ⟨staff_joined_map score config _ _ (staff_noteTag_entry score.clef),
    flattenScore_tags_nodup score, staff_layout_chain score config, fun hpos => ?_⟩
  have hch : List.Chain' LT.lt
      ((Staff.computeLayout score config).systems.map Staff.StaffSystem.startY) := by
    refine List.Chain'.imp ?_ (staff_layout_chain score config)
    intro a b h
    rw [h]
    exact lt_add_of_pos_right a hpos
  exact List.chain'_iff_pairwise.mp hch

/-- C5 witness: under the default configuration (staffHeight 40,
systemSpacing 80) a thirty-note score wraps into systems with strictly
increasing startY. -/
theorem staff_partition_amended_witness :
    (0 : ℚ) < Staff.DEFAULT_CONFIG.staffHeight + Staff.DEFAULT_CONFIG.systemSpacing
    ∧ List.Pairwise LT.lt
        ((Staff.computeLayout longScore Staff.DEFAULT_CONFIG).systems.map
          Staff.StaffSystem.startY) :=
  ⟨by norm_num [Staff.DEFAULT_CONFIG],
   (staff_partition_amended longScore Staff.DEFAULT_CONFIG).2.2.2
     (by norm_num [Staff.DEFAULT_CONFIG])⟩

/-- C6: getAccentedColors follows the neighbor map C→D, D→E, F→G, G→A, A→H
with left = own color and right = neighbor color, and degenerates to the
own color on both sides for E and H. -/
theorem accented_colors_spec :
    getAccentedColors .C = ⟨ULWILA_COLORS .C, ULWILA_COLORS .D⟩
    ∧ getAccentedColors .D = ⟨ULWILA_COLORS .D, ULWILA_COLORS .E⟩
    ∧ getAccentedColors .F = ⟨ULWILA_COLORS .F, ULWILA_COLORS .G⟩
    ∧ getAccentedColors .G = ⟨ULWILA_COLORS .G, ULWILA_COLORS .A⟩
    ∧ getAccentedColors .A = ⟨ULWILA_COLORS .A, ULWILA_COLORS .H⟩
    ∧ getAccentedColors .E = ⟨ULWILA_COLORS .E, ULWILA_COLORS .E⟩
    ∧ getAccentedColors .H = ⟨ULWILA_COLORS .H, ULWILA_COLORS .H⟩
    ∧ ∀ p, (getAccentedColors p).left = ULWILA_COLORS p := by
  refine ⟨rfl, rfl, rfl, rfl, rfl, rfl, rfl, ?_⟩
  intro p
  cases p <;> rfl

/-- C7 counterexample: loadScore accepts a time signature with beats = 0
(returning a Score) instead of rejecting it, so it does not reject every
time signature whose beats is not a positive integer. -/
theorem loadScore_zero_beats_accepted :
    Persist.loadScore (Persist.scoreJsonWithTS
        (.obj [("beats", .num 0), ("beatValue", .num 4)]))
      = .ok (Persist.scoreWithTS 0 4) := rfl

/-- C7 (amended): loadScore validates the time signature only by requiring
`beats` and `beatValue` to be numbers — a missing or non-numeric field is
rejected with an error naming timeSignature, while every numeric value
(zero, negative or fractional included) is accepted unchanged. -/
theorem loadScore_timeSignature_validation :
    (∀ b bv : ℚ, Persist.loadScore (Persist.scoreJsonWithTS
        (.obj [("beats", .num b), ("beatValue", .num bv)]))
      = .ok (Persist.scoreWithTS b bv))
    ∧ Persist.loadScore (Persist.scoreJsonWithTS
        (.obj [("beats", .str "four"), ("beatValue", .num 4)]))
      = .error "timeSignature must have numeric \"beats\" and \"beatValue\""
    ∧ Persist.loadScore (Persist.scoreJsonWithTS
        (.obj [("beatValue", .num 4)]))
      = .error "timeSignature must have numeric \"beats\" and \"beatValue\""
    ∧ Persist.loadScore (Persist.scoreJsonWithTS .null)
      = .error "Score must have a \"timeSignature\" object" :=
  ⟨fun _ _ => rfl, rfl, rfl, rfl⟩

/-- C8 counterexample: for an eighth note with octave "lower" and lyric
"la", the circle entry carries the octave and lyric but its two sub-circles
carry neither, so the metadata is not replicated onto every sub-circle as
the claim states. -/
theorem subcircle_metadata_counterexample :
    (Circles.joinedCircles (Circles.computeCirclesLayout eighthLyricScore
        Circles.DEFAULT_CONFIG)).map Circles.CircleLayout.octave = [some .lower]
    ∧ (Circles.joinedCircles (Circles.computeCirclesLayout eighthLyricScore
        Circles.DEFAULT_CONFIG)).map Circles.subOctaves = [some [none, none]]
    ∧ (Circles.joinedCircles (Circles.computeCirclesLayout eighthLyricScore
        Circles.DEFAULT_CONFIG)).map Circles.CircleLayout.lyric = [some "la"]
    ∧ (Circles.joinedCircles (Circles.computeCirclesLayout eighthLyricScore
        Circles.DEFAULT_CONFIG)).map Circles.subLyrics = [some [none, none]] := by
  refine ⟨?_, ?_, ?_, ?_⟩ <;>
    norm_num [Circles.computeCirclesLayout, Circles.joinedCircles, flattenScore, flattenParts,
      tagNotes, eighthLyricScore, Circles.DEFAULT_CONFIG, Circles.circlesInit,
      Circles.circlesStep, Circles.circleEntry, Circles.computeNoteCircle, durationOf,
      Circles.durationToPositions, Circles.subOctaves, Circles.subLyrics]

/-- C8 (amended): the octave and lyric of each note are carried on its
circle entry, but the sub-circles of eighth/sixteenth notes carry only
position and radius — no octave or lyric is set on any sub-circle. -/
theorem subcircle_metadata (score : Score) (config : Circles.CirclesLayoutConfig) :
    (Circles.joinedCircles (Circles.computeCirclesLayout score config)).map Circles.metaProj
      = (flattenScore score).map Circles.metaSpec :=
  circles_joined_map score config _ _ (circle_metaProj_entry config (config.circleSize / 2))

/-- C9: for any score, configurations, and two canvas widths, the staff
layouts assign each note/rest the same vertical position (and tag, rest
flag, octave), and the circle layouts assign each note the same radius and
sub-circle decomposition — the widths change only the wrapping. -/
theorem width_invariance (score : Score) (scfg : Staff.LayoutConfig)
    (ccfg : Circles.CirclesLayoutConfig) (w1 w2 : ℚ) :
    (Staff.joinedNotes (Staff.computeLayout score { scfg with canvasWidth := w1 })).map
        Staff.noteProj
      = (Staff.joinedNotes (Staff.computeLayout score { scfg with canvasWidth := w2 })).map
        Staff.noteProj
    ∧ (Circles.joinedCircles (Circles.computeCirclesLayout score
          { ccfg with canvasWidth := w1 })).map Circles.circleProj
      = (Circles.joinedCircles (Circles.computeCirclesLayout score
          { ccfg with canvasWidth := w2 })).map Circles.circleProj := by
  constructor
  · rw [staff_joined_map score { scfg with canvasWidth := w1 } _ _
        (staff_noteProj_entry score.clef),
      staff_joined_map score { scfg with canvasWidth := w2 } _ _
        (staff_noteProj_entry score.clef)]
  · rw [circles_joined_map score { ccfg with canvasWidth := w1 } _ _
        (circle_circleProj_entry { ccfg with canvasWidth := w1 }),
      circles_joined_map score { ccfg with canvasWidth := w2 } _ _
        (circle_circleProj_entry { ccfg with canvasWidth := w2 })]
    exact List.map_congr_left fun t _ =>
      (circleSpec_width ccfg w1 t).trans (circleSpec_width ccfg w2 t).symm

/-- C10: a layout contains an empty system/row exactly when the score has no
notes: an empty score yields one empty system (at the margins, with no bar
lines) and one empty row, while for a non-empty score every system and
every row contains at least one entry. -/
theorem empty_layout_iff (score : Score) (scfg : Staff.LayoutConfig)
    (ccfg : Circles.CirclesLayoutConfig) :
    (flattenScore score = [] →
      (Staff.computeLayout score scfg).systems
        = [{ startX := scfg.marginLeft, startY := scfg.marginTop, notes := [], barLines := [] }]
      ∧ (Circles.computeCirclesLayout score ccfg).rows
        = [{ startY := ccfg.marginTop + ccfg.circleSize / 2, circles := [] }])
    ∧ (flattenScore score ≠ [] →
      (∀ sys ∈ (Staff.computeLayout score scfg).systems, sys.notes ≠ [])
      ∧ (∀ row ∈ (Circles.computeCirclesLayout score ccfg).rows, row.circles ≠ [])) := by
  constructor
  · intro h
    exact ⟨by rw [staff_empty_layout score scfg h], circles_empty_layout score ccfg h⟩
  · intro h
    exact ⟨staff_nonempty_layout score scfg h, circles_nonempty_layout score ccfg h⟩

/-- C10 witness: the empty score yields exactly one empty system and one
empty row under the default configurations. -/
theorem empty_layout_iff_witness :
    flattenScore emptyScore = []
    ∧ ((Staff.computeLayout emptyScore Staff.DEFAULT_CONFIG).systems
        = [{ startX := Staff.DEFAULT_CONFIG.marginLeft, startY := Staff.DEFAULT_CONFIG.marginTop,
             notes := [], barLines := [] }]
      ∧ (Circles.computeCirclesLayout emptyScore Circles.DEFAULT_CONFIG).rows
        = [{ startY := Circles.DEFAULT_CONFIG.marginTop + Circles.DEFAULT_CONFIG.circleSize / 2,
             circles := [] }]) :=
  ⟨rfl, (empty_layout_iff emptyScore Staff.DEFAULT_CONFIG Circles.DEFAULT_CONFIG).1 rfl⟩

end ColorScore
